import Mathlib

/-!
# VersionsController (static/frontend/unit/versions/versions.js)

A shallow embedding of the `VersionsController` class: the page elements it
looks up, the three click listeners it attaches, the zero-delay timer behind
`updateButtons`, and `setCurrent`.

Modelling conventions.
* The elements found by the five selectors are distinct nodes; the document
  keeps them in separate fields, and the controller's `this.expand`,
  `this.collapse` and `this.details` are those fields (the node set does not
  change after construction).
* A property read through a `null` reference throws a `TypeError`; functions
  that dereference a nullable reference return `Except JSError`.
* `setTimeout(f)` adds one pending callback; `World.settle` runs the pending
  callbacks in order.
* An error thrown half way through the constructor leaves in place what the
  statements before it did; `Thrown` carries that state.
* `setCurrent` pastes the canonical path into the text of a selector. The
  pasted text is read as a CSS string token (escapes, line breaks, closing
  quote). A token that ends at the closing quote of the template gives an
  attribute selector on `href`; a line break, or a character after an inner
  closing quote that no attribute selector admits there, gives a
  `SyntaxError`; any other text is left to the selector engine of the page,
  a parameter of type `Host`.
* Only version links have their font weight tracked.
-/

namespace VersionsController

/-- The errors a statement of the script can throw. -/
inductive JSError where
  | typeError
  | syntaxError
  deriving DecidableEq, Repr

/-- The values taken by the `open` property of an element and by the locals
`e` and `t` of `updateButtons`: `undefined` (a property never set on an
element that is not a `details` element, a local not yet assigned) or a
boolean. -/
inductive JSVal where
  | undefined
  | bool (b : Bool)
  deriving DecidableEq, Repr

/-- ToBoolean of a value, as used by `!`, `||` and `?:`. -/
def JSVal.truthy : JSVal → Bool
  | .undefined => false
  | .bool b => b

/-- The expression `a || b`. -/
def JSVal.or (a b : JSVal) : JSVal :=
  if a.truthy then a else b

/-- The expression `!a`. -/
def JSVal.not (a : JSVal) : JSVal :=
  .bool (!a.truthy)

/-- The three arrow functions the constructor registers as click listeners. -/
inductive Listener where
  | detailsClick
  | expandClick
  | collapseClick
  deriving DecidableEq, Repr

/-- The parent element of the Expand control. -/
structure Container where
  display : String
  deriving DecidableEq, Repr

/-- The element matching `.js-versionsExpand`. -/
structure ExpandControl where
  display : String
  listeners : List Listener
  parentElement : Option Container
  deriving DecidableEq, Repr

/-- The element matching `.js-versionsCollapse`. -/
structure CollapseControl where
  display : String
  listeners : List Listener
  deriving DecidableEq, Repr

/-- An element matching `.js-versionDetails`. -/
structure DetailsElem where
  tagName : String
  openProp : JSVal
  listeners : List Listener
  deriving DecidableEq, Repr

/-- An element matching `.js-versionLink`. -/
structure VersionLink where
  href : String
  fontWeight : String
  deriving DecidableEq, Repr

/-- The element matching `.js-canonicalURLPath`; `canonicalUrlPath` is
`dataset?.canonicalUrlPath`, `none` for `undefined`. -/
structure Marker where
  canonicalUrlPath : Option String
  deriving DecidableEq, Repr

/-- The part of the document the script reads and writes. -/
structure Document where
  expand : Option ExpandControl
  collapse : Option CollapseControl
  details : List DetailsElem
  versionLinks : List VersionLink
  canonicalURLPath : Option Marker
  deriving DecidableEq, Repr

/-- The document together with the number of pending `setTimeout` callbacks
(every callback the script schedules is the body of `updateButtons`). -/
structure World where
  doc : Document
  timers : Nat
  deriving DecidableEq, Repr

/-- Reading through a reference: `null` throws a `TypeError`. -/
def deref {α : Type} : Option α → Except JSError α
  | some a => .ok a
  | none => .error .typeError

/-- The loop `for(let n of this.details) e=e||n.open, t=t||!n.open` from
`let e,t`; returns the pair `(e, t)`. -/
def scan (ds : List DetailsElem) : JSVal × JSVal :=
  ds.foldl (fun s n => (s.1.or n.openProp, s.2.or n.openProp.not)) (.undefined, .undefined)

/-- The callback `updateButtons` passes to `setTimeout`. -/
def updateButtonsBody (d : Document) : Except JSError Document :=
  if d.expand.isNone || d.collapse.isNone then
    pure d
  else do
    let t := (scan d.details).2
    let x ← deref d.expand
    let d1 := { d with expand := some { x with display := if t.truthy then "inline-block" else "none" } }
    let y ← deref d1.collapse
    pure { d1 with collapse := some { y with display := if t.truthy then "none" else "inline-block" } }

/-- The method `updateButtons`: schedules its body with `setTimeout`. -/
def updateButtons (w : World) : World :=
  { w with timers := w.timers + 1 }

/-- Runs `n` pending callbacks one after the other; an error thrown by a
callback is the result. -/
def runTimers : Nat → Document → Except JSError Document
  | 0, d => pure d
  | n + 1, d => updateButtonsBody d >>= runTimers n

/-- Runs every pending callback. -/
def World.settle (w : World) : Except JSError World :=
  (runTimers w.timers w.doc).map (fun d => { doc := d, timers := 0 })

/-- The text a template literal substitutes for a value: `undefined` becomes
the nine characters `undefined`. -/
def templateText : Option String → String
  | some s => s
  | none => "undefined"

/-! ## The selector text of `setCurrent` -/

/-- The character U+0022, the quotation mark. -/
def quotationMark : Char := Char.ofNat 34

/-- The character U+005C, the backslash. -/
def reverseSolidus : Char := Char.ofNat 92

/-- The character U+000A, LF. -/
def lineFeed : Char := Char.ofNat 10

/-- The character U+000D, CR. -/
def carriageReturn : Char := Char.ofNat 13

/-- The character U+000C, FF. -/
def formFeed : Char := Char.ofNat 12

/-- The character U+FFFD, the replacement character. -/
def replacementChar : Char := Char.ofNat 0xFFFD

/-- A line break of CSS source text: LF, CR or FF. -/
def isNewline (c : Char) : Bool :=
  c = lineFeed || c = carriageReturn || c = formFeed

/-- White space of CSS source text: a line break, a tab or a space. -/
def isWhitespace (c : Char) : Bool :=
  isNewline c || c = Char.ofNat 9 || c = ' '

/-- The value of a hexadecimal digit, `none` for any other character. -/
def hexValue? (c : Char) : Option Nat :=
  if '0' ≤ c ∧ c ≤ '9' then some (c.toNat - 48)
  else if 'a' ≤ c ∧ c ≤ 'f' then some (c.toNat - 87)
  else if 'A' ≤ c ∧ c ≤ 'F' then some (c.toNat - 55)
  else none

/-- The character a hexadecimal escape of value `n` stands for: U+FFFD for
zero, a surrogate or a value past U+10FFFF. -/
def escapedChar (n : Nat) : Char :=
  if n = 0 ∨ (0xD800 ≤ n ∧ n ≤ 0xDFFF) ∨ 0x10FFFF < n then replacementChar else Char.ofNat n

/-- Preprocessing of the source text: U+0000 is read as U+FFFD. -/
def preprocess (c : Char) : Char :=
  if c = Char.ofNat 0 then replacementChar else c

/-- Where the reading of a double-quoted CSS string stands. -/
inductive Mode where
  | text
  | escape
  | hex (digits : Nat) (code : Nat)
  | skipLF
  | closed
  | bad
  deriving DecidableEq, Repr

/-- The reading of a double-quoted CSS string, started after its opening
quote: `value` is the string read so far, `rest` the text after the closing
quote. -/
structure Scanner where
  mode : Mode
  value : List Char
  rest : List Char
  deriving DecidableEq, Repr

/-- One character read inside the string, outside any escape: a quote closes
the string, a line break spoils it, a backslash starts an escape. -/
def Scanner.text (s : Scanner) (c : Char) : Scanner :=
  if c = quotationMark then { s with mode := .closed }
  else if isNewline c then { s with mode := .bad }
  else if c = reverseSolidus then { s with mode := .escape }
  else { s with mode := .text, value := s.value ++ [preprocess c] }

/-- One character read. After a backslash a hexadecimal digit starts a code
of at most six digits, which one white space may follow (CR LF counting as
one); a line break is dropped with the backslash; any other character stands
for itself. -/
def Scanner.step (s : Scanner) (c : Char) : Scanner :=
  match s.mode with
  | .text => s.text c
  | .escape =>
    match hexValue? c with
    | some h => { s with mode := .hex 1 h }
    | none =>
      if c = carriageReturn then { s with mode := .skipLF }
      else if isNewline c then { s with mode := .text }
      else { s with mode := .text, value := s.value ++ [preprocess c] }
  | .hex n code =>
    match (if n < 6 then hexValue? c else none) with
    | some h => { s with mode := .hex (n + 1) (16 * code + h) }
    | none =>
      let s1 : Scanner := { s with mode := .text, value := s.value ++ [escapedChar code] }
      if c = carriageReturn then { s1 with mode := .skipLF }
      else if isWhitespace c then s1
      else s1.text c
  | .skipLF =>
    if c = lineFeed then { s with mode := .text }
    else ({ s with mode := .text } : Scanner).text c
  | .closed => { s with rest := s.rest ++ [c] }
  | .bad => s

/-- What the text `.js-versionLink[href="v"]` is as a selector. -/
inductive Selector where
  | hrefEquals (value : String)
  | invalid
  | unparsed
  deriving DecidableEq, Repr

/-- After the string of an attribute selector only white space, a comment,
the identifier `i` or `s` and the closing bracket may come; this tells
whether `c` can start one of these. -/
def mayFollowString (c : Char) : Bool :=
  c = ']' || c = '/' || c = reverseSolidus || c = 'i' || c = 'I' || c = 's' || c = 'S'

/-- The selector `.js-versionLink[href="v"]` for the pasted text `v`. -/
def parseSelector (v : String) : Selector :=
  let s := (v.data ++ [quotationMark, ']']).foldl Scanner.step { mode := .text, value := [], rest := [] }
  match s.mode with
  | .closed =>
    if s.rest = [']'] then .hrefEquals (String.mk s.value)
    else
      match s.rest.dropWhile isWhitespace with
      | c :: _ => if mayFollowString c then .unparsed else .invalid
      | [] => .unparsed
  | .bad => .invalid
  | _ => .unparsed

/-- A character that is neither a quotation mark, a backslash, a line break
nor U+0000: inside a CSS string it stands for itself. -/
def plainChar (c : Char) : Bool :=
  !(c = quotationMark || c = reverseSolidus || isNewline c || c = Char.ofNat 0)

/-- A text made of plain characters only. -/
def cssPlain (v : String) : Bool :=
  v.data.all plainChar

/-- The selector engine of the page on the selector texts left unparsed:
it is given the pasted text and the version links, and throws or returns the
index of the version link that is the first match (`none` when nothing
matches or the first match is no version link). -/
abbrev Host := String → List VersionLink → Except JSError (Option Nat)

/-- The index of the first version link, in document order, whose `href`
attribute is `s`. -/
def firstWithHref (s : String) : List VersionLink → Option Nat
  | [] => none
  | l :: ls => if l.href = s then some 0 else (firstWithHref s ls).map (· + 1)

/-- The call `document.querySelector` on `.js-versionLink[href="v"]`,
restricted to the version links. -/
def querySelectorVersionLink (host : Host) (v : String) (ls : List VersionLink) :
    Except JSError (Option Nat) :=
  match parseSelector v with
  | .hrefEquals s => .ok (firstWithHref s ls)
  | .invalid => .error .syntaxError
  | .unparsed => host v ls

/-- The assignment `t.style.fontWeight = s` on the link at index `i`. -/
def setFontWeight (s : String) : Nat → List VersionLink → List VersionLink
  | _, [] => []
  | 0, l :: ls => { l with fontWeight := s } :: ls
  | i + 1, l :: ls => l :: setFontWeight s i ls

/-- The method `setCurrent`. -/
def setCurrent (host : Host) (d : Document) : Except JSError Document := do
  let e : Option String := d.canonicalURLPath.bind (fun m => m.canonicalUrlPath)
  let t ← querySelectorVersionLink host (templateText e) d.versionLinks
  match t with
  | some i => pure { d with versionLinks := setFontWeight "bold" i d.versionLinks }
  | none => pure d

/-! ## Listeners and the constructor -/

/-- The statement `this.details.map(e => e.open = v)`. -/
def setOpenAll (v : Bool) (d : Document) : Document :=
  { d with details := d.details.map (fun (e : DetailsElem) => { e with openProp := .bool v }) }

/-- The body of a registered listener. -/
def Listener.handle : Listener → World → World
  | .detailsClick, w => updateButtons w
  | .expandClick, w => updateButtons { w with doc := setOpenAll true w.doc }
  | .collapseClick, w => updateButtons { w with doc := setOpenAll false w.doc }

/-- Dispatch of a click to the listeners of one element, in registration
order. -/
def dispatch (ls : List Listener) (w : World) : World :=
  ls.foldl (fun w l => l.handle w) w

/-- A click on the Expand control. -/
def clickExpand (w : World) : World :=
  match w.doc.expand with
  | some x => dispatch x.listeners w
  | none => w

/-- A click on the Collapse control. -/
def clickCollapse (w : World) : World :=
  match w.doc.collapse with
  | some y => dispatch y.listeners w
  | none => w

/-- An error thrown out of the constructor, with the state the statements
run before it have left. -/
structure Thrown where
  error : JSError
  world : World
  deriving DecidableEq, Repr

/-- An error of a statement run in state `w`. -/
def throwIn {α : Type} (w : World) : Except JSError α → Except Thrown α
  | .ok a => .ok a
  | .error e => .error { error := e, world := w }

/-- The constructor of `VersionsController`. -/
def constructor (host : Host) (w : World) : Except Thrown World :=
  if (w.doc.expand.bind (fun x => x.parentElement)).isSome then do
    let d1 ← throwIn w
      (if w.doc.details.any (fun e => e.tagName = "DETAILS") then do
        let x ← deref w.doc.expand
        let c ← deref x.parentElement
        pure { w.doc with expand := some { x with parentElement := some { c with display := "block" } } }
      else
        pure w.doc)
    let d2 := { d1 with
      details := d1.details.map (fun (e : DetailsElem) => { e with listeners := e.listeners ++ [Listener.detailsClick] }) }
    let d3 := { d2 with
      expand := d2.expand.map (fun (x : ExpandControl) => { x with listeners := x.listeners ++ [Listener.expandClick] }) }
    let d4 := { d3 with
      collapse := d3.collapse.map (fun (y : CollapseControl) => { y with listeners := y.listeners ++ [Listener.collapseClick] }) }
    let w5 := updateButtons { w with doc := d4 }
    let d6 ← throwIn w5 (setCurrent host w5.doc)
    pure { w5 with doc := d6 }
  else
    pure w

/-- The state a run of the constructor leaves, whether it returned or
threw. -/
def stateAfter : Except Thrown World → World
  | .ok w => w
  | .error t => t.world

/-! ## Sample pages -/

/-- A versions page: both controls inside a hidden container, three entries
(an open `details`, a closed `details`, a `div` whose `open` was never set),
three version links and the canonical path of the second one. -/
def versionsPage : World :=
  { doc :=
      { expand := some { display := "", listeners := [], parentElement := some { display := "none" } }
        collapse := some { display := "", listeners := [] }
        details :=
          [ { tagName := "DETAILS", openProp := .bool true, listeners := [] },
            { tagName := "DETAILS", openProp := .bool false, listeners := [] },
            { tagName := "DIV", openProp := .undefined, listeners := [] } ]
        versionLinks :=
          [ { href := "/example.com/m@v1.1.0", fontWeight := "" },
            { href := "/example.com/m@v1.0.0", fontWeight := "" },
            { href := "/example.com/m@v0.9.0", fontWeight := "" } ]
        canonicalURLPath := some { canonicalUrlPath := some "/example.com/m@v1.0.0" } }
    timers := 0 }

/-- A page with both controls and no entry in the Detail group. -/
def emptyGroupPage : World :=
  { versionsPage with doc := { versionsPage.doc with details := [] } }

/-- A page without the Expand control; the canonical path is that of the
second version link. -/
def noExpandPage : World :=
  { versionsPage with doc := { versionsPage.doc with expand := none } }

/-- A page whose Expand control has no parent element; the canonical path is
that of the second version link. -/
def orphanExpandPage : World :=
  { versionsPage with
    doc := { versionsPage.doc with
      expand := some { display := "", listeners := [], parentElement := none } } }

/-- A page without the canonical path marker, one of whose version links
has the `href` attribute `undefined`. -/
def noMarkerPage : Document :=
  { expand := none
    collapse := none
    details := []
    versionLinks :=
      [ { href := "/example.com/m@v1.1.0", fontWeight := "" },
        { href := "undefined", fontWeight := "" } ]
    canonicalURLPath := none }

/-- The path `/x`, a backslash, `79`: as CSS text the last three characters
are an escape for the letter `y`. -/
def escapePath : String :=
  String.mk ['/', 'x', reverseSolidus, '7', '9']

/-- A page whose canonical path is `escapePath`, the `href` of the first
version link; the second link has the `href` attribute `/xy`. -/
def escapePathPage : Document :=
  { expand := none
    collapse := none
    details := []
    versionLinks :=
      [ { href := escapePath, fontWeight := "" },
        { href := "/xy", fontWeight := "" } ]
    canonicalURLPath := some { canonicalUrlPath := some escapePath } }

/-- The path `/a`, a quotation mark, `b`. -/
def quotePath : String :=
  String.mk ['/', 'a', quotationMark, 'b']

/-- The sample versions page with the canonical path `quotePath`, which is
also the `href` of its only version link. -/
def quotePathPage : World :=
  { versionsPage with
    doc := { versionsPage.doc with
      versionLinks := [ { href := quotePath, fontWeight := "" } ]
      canonicalURLPath := some { canonicalUrlPath := some quotePath } } }

/-- A selector engine that rejects every text left to it. -/
def rejectingHost : Host :=
  fun _ _ => .error .syntaxError

/-- A Detail group made of one open `details` element. -/
def openDetailsOnly : Document :=
  { versionsPage.doc with
    details := [ { tagName := "DETAILS", openProp := .bool true, listeners := [] } ] }

/-- The group of `openDetailsOnly` followed by a `div` whose `open` was never
set. -/
def openDetailsAndDiv : Document :=
  { versionsPage.doc with
    details :=
      [ { tagName := "DETAILS", openProp := .bool true, listeners := [] },
        { tagName := "DIV", openProp := .undefined, listeners := [] } ] }

/-- A Detail group made of one `div` carrying `open = true`. -/
def openDivOnly : Document :=
  { versionsPage.doc with
    details := [ { tagName := "DIV", openProp := .bool true, listeners := [] } ] }

end VersionsController
namespace VersionsController

/-! ## The scan of the Detail group -/

theorem JSVal.truthy_or (a b : JSVal) : (a.or b).truthy = (a.truthy || b.truthy) := by
  unfold JSVal.or
  cases h : a.truthy <;> simp [h]

theorem JSVal.truthy_not (a : JSVal) : a.not.truthy = !a.truthy := rfl

theorem foldl_scan_snd (ds : List DetailsElem) (s : JSVal × JSVal) :
    (ds.foldl (fun s n => (s.1.or n.openProp, s.2.or n.openProp.not)) s).2.truthy
      = (s.2.truthy || ds.any (fun n => !n.openProp.truthy)) := by
  induction ds generalizing s with
  | nil => simp
  | cons n ns ih =>
    rw [List.foldl_cons, ih]
    simp only [JSVal.truthy_or, JSVal.truthy_not, List.any_cons, Bool.or_assoc]

theorem scan_snd_truthy (ds : List DetailsElem) :
    (scan ds).2.truthy = ds.any (fun n => !n.openProp.truthy) := by
  unfold scan
  rw [foldl_scan_snd]
  rfl

theorem scan_snd_truthy_iff (ds : List DetailsElem) :
    (scan ds).2.truthy = true ↔ ∃ n ∈ ds, n.openProp.truthy = false := by
  simp [scan_snd_truthy]

/-! ## The timer callback -/

theorem updateButtonsBody_present (d : Document) (x : ExpandControl) (y : CollapseControl)
    (hx : d.expand = some x) (hy : d.collapse = some y) :
    updateButtonsBody d = .ok { d with
      expand := some { x with
        display := if (scan d.details).2.truthy then "inline-block" else "none" }
      collapse := some { y with
        display := if (scan d.details).2.truthy then "none" else "inline-block" } } := by
  simp [updateButtonsBody, hx, hy, deref, pure, Except.pure, bind, Except.bind]

theorem updateButtonsBody_missing (d : Document)
    (h : d.expand = none ∨ d.collapse = none) : updateButtonsBody d = .ok d := by
  rcases h with h | h <;> simp [updateButtonsBody, h, pure, Except.pure]

theorem runTimers_missing (n : Nat) (d : Document)
    (h : d.expand = none ∨ d.collapse = none) : runTimers n d = .ok d := by
  induction n with
  | zero => rfl
  | succ n ih => simp [runTimers, updateButtonsBody_missing d h, bind, Except.bind, ih]

theorem runTimers_present (n : Nat) (d : Document) (x : ExpandControl) (y : CollapseControl)
    (hx : d.expand = some x) (hy : d.collapse = some y) :
    runTimers (n + 1) d = .ok { d with
      expand := some { x with
        display := if (scan d.details).2.truthy then "inline-block" else "none" }
      collapse := some { y with
        display := if (scan d.details).2.truthy then "none" else "inline-block" } } := by
  induction n generalizing d x y with
  | zero =>
    simp [runTimers, updateButtonsBody_present d x y hx hy, bind, Except.bind, pure, Except.pure]
  | succ n ih =>
    rw [runTimers, updateButtonsBody_present d x y hx hy]
    simp only [bind, Except.bind]
    rw [ih _ _ _ rfl rfl]

end VersionsController

namespace VersionsController

/-! ## Recomputation of button visibility -/

theorem settle_updateButtons_present (w : World) (x : ExpandControl) (y : CollapseControl)
    (hx : w.doc.expand = some x) (hy : w.doc.collapse = some y) :
    (updateButtons w).settle = .ok
      { doc := { w.doc with
          expand := some { x with
            display := if (scan w.doc.details).2.truthy then "inline-block" else "none" }
          collapse := some { y with
            display := if (scan w.doc.details).2.truthy then "none" else "inline-block" } }
        timers := 0 } := by
  simp only [World.settle, updateButtons]
  rw [runTimers_present w.timers w.doc x y hx hy]
  rfl

theorem settle_updateButtons_fields (w : World) (x : ExpandControl) (y : CollapseControl)
    (hx : w.doc.expand = some x) (hy : w.doc.collapse = some y) :
    ∃ w', (updateButtons w).settle = .ok w' ∧
      w'.doc.details = w.doc.details ∧
      w'.doc.expand.map (fun e => e.display)
        = some (if (scan w.doc.details).2.truthy then "inline-block" else "none") ∧
      w'.doc.collapse.map (fun c => c.display)
        = some (if (scan w.doc.details).2.truthy then "none" else "inline-block") :=
  ⟨_, settle_updateButtons_present w x y hx hy, rfl, rfl, rfl⟩

/-- C1: when both controls are present, a recomputation of button visibility
(`updateButtons`, once its timer has run) sets the Expand control's display to
`inline-block` if some element of the Detail group is not open (its `open`
reads as false) and to `none` otherwise, and sets the Collapse control's
display to `inline-block` if no element is not open and to `none` otherwise;
this for every Detail group and every number of timers already pending. -/
theorem updateButtons_display (w : World) (x : ExpandControl) (y : CollapseControl)
    (hx : w.doc.expand = some x) (hy : w.doc.collapse = some y) :
    ∃ w', (updateButtons w).settle = .ok w' ∧
      w'.doc.expand.map (fun e => e.display)
        = some (if ∃ n ∈ w.doc.details, n.openProp.truthy = false
            then "inline-block" else "none") ∧
      w'.doc.collapse.map (fun c => c.display)
        = some (if ¬ ∃ n ∈ w.doc.details, n.openProp.truthy = false
            then "inline-block" else "none") := by
  refine ⟨_, settle_updateButtons_present w x y hx hy, ?_, ?_⟩
  · by_cases h : ∃ n ∈ w.doc.details, n.openProp.truthy = false
    · simp only [Option.map_some', if_pos h, if_pos ((scan_snd_truthy_iff _).2 h)]
    · have h' : ¬ (scan w.doc.details).2.truthy = true := fun ht => h ((scan_snd_truthy_iff _).1 ht)
      simp only [Option.map_some', if_neg h, if_neg h']
  · by_cases h : ∃ n ∈ w.doc.details, n.openProp.truthy = false
    · simp only [Option.map_some', if_neg (not_not_intro h), if_pos ((scan_snd_truthy_iff _).2 h)]
    · have h' : ¬ (scan w.doc.details).2.truthy = true := fun ht => h ((scan_snd_truthy_iff _).1 ht)
      simp only [Option.map_some', if_pos h, if_neg h']

/-- Witness of C1 on the sample page, where the second entry is closed. -/
theorem updateButtons_display_witness :
    versionsPage.doc.expand = some ⟨"", [], some ⟨"none"⟩⟩ ∧
    versionsPage.doc.collapse = some ⟨"", []⟩ ∧
    ∃ w', (updateButtons versionsPage).settle = .ok w' ∧
      w'.doc.expand.map (fun e => e.display)
        = some (if ∃ n ∈ versionsPage.doc.details, n.openProp.truthy = false
            then "inline-block" else "none") ∧
      w'.doc.collapse.map (fun c => c.display)
        = some (if ¬ ∃ n ∈ versionsPage.doc.details, n.openProp.truthy = false
            then "inline-block" else "none") :=
  ⟨rfl, rfl, updateButtons_display versionsPage _ _ rfl rfl⟩

/-- C9: with an empty Detail group and both controls present, a recomputation
of button visibility sets the Collapse control's display to `inline-block`
and the Expand control's display to `none`. -/
theorem updateButtons_empty_group (w : World) (x : ExpandControl) (y : CollapseControl)
    (hx : w.doc.expand = some x) (hy : w.doc.collapse = some y) (hd : w.doc.details = []) :
    ∃ w', (updateButtons w).settle = .ok w' ∧
      w'.doc.collapse.map (fun c => c.display) = some "inline-block" ∧
      w'.doc.expand.map (fun e => e.display) = some "none" := by
  refine ⟨_, settle_updateButtons_present w x y hx hy, ?_, ?_⟩ <;>
    simp [hd, scan, JSVal.truthy]

/-- Witness of C9 on the sample page without entries. -/
theorem updateButtons_empty_group_witness :
    emptyGroupPage.doc.expand = some ⟨"", [], some ⟨"none"⟩⟩ ∧
    emptyGroupPage.doc.collapse = some ⟨"", []⟩ ∧
    emptyGroupPage.doc.details = [] ∧
    ∃ w', (updateButtons emptyGroupPage).settle = .ok w' ∧
      w'.doc.collapse.map (fun c => c.display) = some "inline-block" ∧
      w'.doc.expand.map (fun e => e.display) = some "none" :=
  ⟨rfl, rfl, rfl, updateButtons_empty_group emptyGroupPage _ _ rfl rfl rfl⟩

/-- C10: when the Expand control or the Collapse control is missing, the
callback of `updateButtons` returns without an error and leaves the document
as it was, and so does `updateButtons` followed by every pending timer: the
display of the control that exists and the open state of every element are
unchanged. -/
theorem updateButtons_missing_control (w : World)
    (h : w.doc.expand = none ∨ w.doc.collapse = none) :
    updateButtonsBody w.doc = .ok w.doc ∧
      (updateButtons w).settle = .ok { doc := w.doc, timers := 0 } := by
  refine ⟨updateButtonsBody_missing w.doc h, ?_⟩
  simp only [World.settle, updateButtons]
  rw [runTimers_missing _ w.doc h]
  rfl

/-- Witness of C10 on the sample page without the Expand control. -/
theorem updateButtons_missing_control_witness :
    (noExpandPage.doc.expand = none ∨ noExpandPage.doc.collapse = none) ∧
    updateButtonsBody noExpandPage.doc = .ok noExpandPage.doc ∧
      (updateButtons noExpandPage).settle = .ok { doc := noExpandPage.doc, timers := 0 } :=
  ⟨Or.inl rfl, updateButtons_missing_control noExpandPage (Or.inl rfl)⟩

end VersionsController

namespace VersionsController

/-! ## Listeners and clicks -/

theorem handle_expand (l : Listener) (w : World) : (l.handle w).doc.expand = w.doc.expand := by
  cases l <;> rfl

theorem handle_collapse (l : Listener) (w : World) :
    (l.handle w).doc.collapse = w.doc.collapse := by
  cases l <;> rfl

theorem handle_length (l : Listener) (w : World) :
    (l.handle w).doc.details.length = w.doc.details.length := by
  cases l <;> simp [Listener.handle, updateButtons, setOpenAll]

theorem dispatch_append (ls : List Listener) (l : Listener) (w : World) :
    dispatch (ls ++ [l]) w = l.handle (dispatch ls w) := by
  simp [dispatch, List.foldl_append]

theorem dispatch_expand (ls : List Listener) (w : World) :
    (dispatch ls w).doc.expand = w.doc.expand := by
  induction ls generalizing w with
  | nil => rfl
  | cons l ls ih => simp only [dispatch, List.foldl_cons] at ih ⊢; rw [ih, handle_expand]

theorem dispatch_collapse (ls : List Listener) (w : World) :
    (dispatch ls w).doc.collapse = w.doc.collapse := by
  induction ls generalizing w with
  | nil => rfl
  | cons l ls ih => simp only [dispatch, List.foldl_cons] at ih ⊢; rw [ih, handle_collapse]

theorem dispatch_length (ls : List Listener) (w : World) :
    (dispatch ls w).doc.details.length = w.doc.details.length := by
  induction ls generalizing w with
  | nil => rfl
  | cons l ls ih => simp only [dispatch, List.foldl_cons] at ih ⊢; rw [ih, handle_length]

theorem scan_all_open (ds : List DetailsElem) (h : ∀ n ∈ ds, n.openProp = .bool true) :
    (scan ds).2.truthy = false := by
  rw [scan_snd_truthy, List.any_eq_false]
  intro n hn
  simp [h n hn, JSVal.truthy]

theorem scan_all_closed (ds : List DetailsElem) (hne : ds ≠ [])
    (h : ∀ n ∈ ds, n.openProp = .bool false) : (scan ds).2.truthy = true := by
  rw [scan_snd_truthy, List.any_eq_true]
  cases ds with
  | nil => exact absurd rfl hne
  | cons n ns =>
    exact ⟨n, List.mem_cons_self n ns, by simp [h n (List.mem_cons_self n ns), JSVal.truthy]⟩

/-- A click on the Expand control whose last listener is the one the
constructor registers: every entry ends open, and the timers then hide
Expand and show Collapse. -/
theorem clickExpand_wired (v : World) (x : ExpandControl) (y : CollapseControl)
    (ls : List Listener) (hx : v.doc.expand = some x) (hy : v.doc.collapse = some y)
    (hl : x.listeners = ls ++ [Listener.expandClick]) :
    (clickExpand v).doc.details.length = v.doc.details.length ∧
    (∀ n ∈ (clickExpand v).doc.details, n.openProp = .bool true) ∧
    ∃ w3, (clickExpand v).settle = .ok w3 ∧
      w3.doc.details = (clickExpand v).doc.details ∧
      w3.doc.expand.map (fun e => e.display) = some "none" ∧
      w3.doc.collapse.map (fun c => c.display) = some "inline-block" := by
  have hc : clickExpand v
      = updateButtons { dispatch ls v with doc := setOpenAll true (dispatch ls v).doc } := by
    simp only [clickExpand, hx, hl, dispatch_append]
    rfl
  have hopen : ∀ n ∈ (clickExpand v).doc.details, n.openProp = .bool true := by
    intro n hn
    rw [hc] at hn
    simp only [updateButtons, setOpenAll, List.mem_map] at hn
    obtain ⟨m, _, rfl⟩ := hn
    rfl
  refine ⟨?_, hopen, ?_⟩
  · rw [hc]
    simp only [updateButtons, setOpenAll, List.length_map]
    exact dispatch_length ls v
  · have hx2 : ({ dispatch ls v with doc := setOpenAll true (dispatch ls v).doc } : World).doc.expand
        = some x := by
      simp only [setOpenAll]; rw [dispatch_expand, hx]
    have hy2 : ({ dispatch ls v with doc := setOpenAll true (dispatch ls v).doc } : World).doc.collapse
        = some y := by
      simp only [setOpenAll]; rw [dispatch_collapse, hy]
    obtain ⟨w3, hs, hdet, he, hcol⟩ := settle_updateButtons_fields _ x y hx2 hy2
    have hd : ({ dispatch ls v with doc := setOpenAll true (dispatch ls v).doc } : World).doc.details
        = (clickExpand v).doc.details := by rw [hc]; rfl
    rw [← hc] at hs
    rw [hd] at hdet he hcol
    rw [scan_all_open _ hopen] at he hcol
    exact ⟨w3, hs, hdet, by simpa using he, by simpa using hcol⟩

/-- A click on the Collapse control whose last listener is the one the
constructor registers: every entry ends closed, and the timers then show
Expand and hide Collapse unless the group is empty. -/
theorem clickCollapse_wired (v : World) (x : ExpandControl) (y : CollapseControl)
    (ls : List Listener) (hx : v.doc.expand = some x) (hy : v.doc.collapse = some y)
    (hl : y.listeners = ls ++ [Listener.collapseClick]) :
    (clickCollapse v).doc.details.length = v.doc.details.length ∧
    (∀ n ∈ (clickCollapse v).doc.details, n.openProp = .bool false) ∧
    ∃ w3, (clickCollapse v).settle = .ok w3 ∧
      w3.doc.details = (clickCollapse v).doc.details ∧
      w3.doc.expand.map (fun e => e.display)
        = some (if v.doc.details.length = 0 then "none" else "inline-block") ∧
      w3.doc.collapse.map (fun c => c.display)
        = some (if v.doc.details.length = 0 then "inline-block" else "none") := by
  have hc : clickCollapse v
      = updateButtons { dispatch ls v with doc := setOpenAll false (dispatch ls v).doc } := by
    simp only [clickCollapse, hy, hl, dispatch_append]
    rfl
  have hclosed : ∀ n ∈ (clickCollapse v).doc.details, n.openProp = .bool false := by
    intro n hn
    rw [hc] at hn
    simp only [updateButtons, setOpenAll, List.mem_map] at hn
    obtain ⟨m, _, rfl⟩ := hn
    rfl
  have hlen : (clickCollapse v).doc.details.length = v.doc.details.length := by
    rw [hc]
    simp only [updateButtons, setOpenAll, List.length_map]
    exact dispatch_length ls v
  refine ⟨hlen, hclosed, ?_⟩
  have hx2 : ({ dispatch ls v with doc := setOpenAll false (dispatch ls v).doc } : World).doc.expand
      = some x := by
    simp only [setOpenAll]; rw [dispatch_expand, hx]
  have hy2 : ({ dispatch ls v with doc := setOpenAll false (dispatch ls v).doc } : World).doc.collapse
      = some y := by
    simp only [setOpenAll]; rw [dispatch_collapse, hy]
  obtain ⟨w3, hs, hdet, he, hcol⟩ := settle_updateButtons_fields _ x y hx2 hy2
  have hd : ({ dispatch ls v with doc := setOpenAll false (dispatch ls v).doc } : World).doc.details
      = (clickCollapse v).doc.details := by rw [hc]; rfl
  rw [← hc] at hs
  rw [hd] at hdet he hcol
  by_cases h0 : v.doc.details.length = 0
  · have hnil : (clickCollapse v).doc.details = [] := List.length_eq_zero.1 (hlen.trans h0)
    rw [hnil] at he hcol
    refine ⟨w3, hs, hdet, ?_, ?_⟩
    · rw [he, if_pos h0]; rfl
    · rw [hcol, if_pos h0]; rfl
  · have hne : (clickCollapse v).doc.details ≠ [] := by
      intro hnil
      exact h0 (hlen.symm.trans (by rw [hnil]; rfl))
    rw [scan_all_closed _ hne hclosed] at he hcol
    refine ⟨w3, hs, hdet, ?_, ?_⟩
    · rw [he, if_neg h0]; rfl
    · rw [hcol, if_neg h0]; rfl

end VersionsController

namespace VersionsController

/-! ## The constructor -/

theorem setCurrent_ok_fields (host : Host) (d d' : Document) (h : setCurrent host d = .ok d') :
    d'.expand = d.expand ∧ d'.collapse = d.collapse ∧ d'.details = d.details ∧
      d'.canonicalURLPath = d.canonicalURLPath := by
  unfold setCurrent at h
  cases hq : querySelectorVersionLink host
      (templateText (d.canonicalURLPath.bind (fun m => m.canonicalUrlPath))) d.versionLinks with
  | error e => simp [hq, bind, Except.bind] at h
  | ok t =>
    cases t with
    | none =>
      simp only [hq, bind, Except.bind, pure, Except.pure, Except.ok.injEq] at h
      subst h
      exact ⟨rfl, rfl, rfl, rfl⟩
    | some i =>
      simp only [hq, bind, Except.bind, pure, Except.pure, Except.ok.injEq] at h
      subst h
      exact ⟨rfl, rfl, rfl, rfl⟩

/-- The last two statements of the constructor, `setCurrent` and the return,
leave the timers, the controls and the Detail group as they find them,
whether `setCurrent` throws or not. -/
theorem stateAfter_setCurrent (host : Host) (w5 : World) :
    (stateAfter (throwIn w5 (setCurrent host w5.doc) >>= fun d6 =>
        (pure { w5 with doc := d6 } : Except Thrown World))).timers = w5.timers ∧
    (stateAfter (throwIn w5 (setCurrent host w5.doc) >>= fun d6 =>
        (pure { w5 with doc := d6 } : Except Thrown World))).doc.expand = w5.doc.expand ∧
    (stateAfter (throwIn w5 (setCurrent host w5.doc) >>= fun d6 =>
        (pure { w5 with doc := d6 } : Except Thrown World))).doc.collapse = w5.doc.collapse ∧
    (stateAfter (throwIn w5 (setCurrent host w5.doc) >>= fun d6 =>
        (pure { w5 with doc := d6 } : Except Thrown World))).doc.details = w5.doc.details := by
  cases hs : setCurrent host w5.doc with
  | error e => exact ⟨rfl, rfl, rfl, rfl⟩
  | ok d6 =>
    obtain ⟨h1, h2, h3, _⟩ := setCurrent_ok_fields host w5.doc d6 hs
    exact ⟨rfl, h1, h2, h3⟩

/-- With an Expand control that has a parent, the constructor comes down to
`setCurrent` run in the state `w5` the statements before it have built. -/
theorem constructor_eq (host : Host) (w : World) (x : ExpandControl) (c : Container)
    (hx : w.doc.expand = some x) (hp : x.parentElement = some c) :
    ∃ w5 : World,
      constructor host w = (throwIn w5 (setCurrent host w5.doc) >>= fun d6 =>
        (pure { w5 with doc := d6 } : Except Thrown World)) ∧
      w5.timers = w.timers + 1 ∧
      w5.doc.expand = some
        { display := x.display
          listeners := x.listeners ++ [Listener.expandClick]
          parentElement := some
            { display := if w.doc.details.any (fun e => e.tagName = "DETAILS")
                then "block" else c.display } } ∧
      w5.doc.collapse = w.doc.collapse.map
        (fun (y : CollapseControl) => { y with listeners := y.listeners ++ [Listener.collapseClick] }) ∧
      w5.doc.details = w.doc.details.map
        (fun (e : DetailsElem) => { e with listeners := e.listeners ++ [Listener.detailsClick] }) := by
  have h1 : (w.doc.expand.bind (fun x => x.parentElement)).isSome = true := by simp [hx, hp]
  unfold constructor
  rw [if_pos h1]
  obtain ⟨xd, xl, xp⟩ := x
  simp only at hp
  subst hp
  cases hany : w.doc.details.any (fun e => e.tagName = "DETAILS")
  · simp only [Bool.false_eq_true, if_false]
    refine ⟨_, rfl, ?_⟩
    refine ⟨rfl, ?_, ?_, rfl⟩
    · simp [updateButtons, hx]
    · simp [updateButtons]
  · simp only [if_true, hx, deref]
    refine ⟨_, rfl, ?_⟩
    refine ⟨rfl, ?_, ?_, rfl⟩
    · simp [updateButtons]
    · simp [updateButtons]

/-- The state the constructor leaves when the Expand control has a parent,
whether `setCurrent` throws at its end or not. -/
theorem constructor_wired (host : Host) (w : World) (x : ExpandControl) (c : Container)
    (hx : w.doc.expand = some x) (hp : x.parentElement = some c) :
    (stateAfter (constructor host w)).timers = w.timers + 1 ∧
      (stateAfter (constructor host w)).doc.expand = some
        { display := x.display
          listeners := x.listeners ++ [Listener.expandClick]
          parentElement := some
            { display := if w.doc.details.any (fun e => e.tagName = "DETAILS")
                then "block" else c.display } } ∧
      (stateAfter (constructor host w)).doc.collapse = w.doc.collapse.map
        (fun (y : CollapseControl) => { y with listeners := y.listeners ++ [Listener.collapseClick] }) ∧
      (stateAfter (constructor host w)).doc.details = w.doc.details.map
        (fun (e : DetailsElem) => { e with listeners := e.listeners ++ [Listener.detailsClick] }) := by
  obtain ⟨w5, heq, ht, he, hc, hd⟩ := constructor_eq host w x c hx hp
  obtain ⟨h1, h2, h3, h4⟩ := stateAfter_setCurrent host w5
  rw [heq]
  exact ⟨h1.trans ht, h2.trans he, h3.trans hc, h4.trans hd⟩

end VersionsController

namespace VersionsController

/-! ## Construction followed by a click -/

theorem settle_present (w : World) (n : Nat) (x : ExpandControl) (y : CollapseControl)
    (ht : w.timers = n + 1) (hx : w.doc.expand = some x) (hy : w.doc.collapse = some y) :
    ∃ w2, w.settle = .ok w2 ∧
      w2.doc.expand = some { x with
        display := if (scan w.doc.details).2.truthy then "inline-block" else "none" } ∧
      w2.doc.collapse = some { y with
        display := if (scan w.doc.details).2.truthy then "none" else "inline-block" } ∧
      w2.doc.details = w.doc.details := by
  unfold World.settle
  rw [ht, runTimers_present n w.doc x y hx hy]
  exact ⟨_, rfl, rfl, rfl, rfl⟩

/-- After construction (whether or not `setCurrent` threw at its end) and
the first recomputation both controls carry, as their last listener, the one
the constructor registered, and the Detail group has kept its entries. -/
theorem constructor_settle (host : Host) (w : World) (x : ExpandControl) (c : Container)
    (y : CollapseControl) (hx : w.doc.expand = some x) (hp : x.parentElement = some c)
    (hy : w.doc.collapse = some y) :
    ∃ w2 x2 y2, (stateAfter (constructor host w)).settle = .ok w2 ∧
      w2.doc.expand = some x2 ∧ x2.listeners = x.listeners ++ [Listener.expandClick] ∧
      w2.doc.collapse = some y2 ∧ y2.listeners = y.listeners ++ [Listener.collapseClick] ∧
      w2.doc.details.length = w.doc.details.length := by
  obtain ⟨ht, he, hc, hd⟩ := constructor_wired host w x c hx hp
  rw [hy] at hc
  obtain ⟨w2, h2, he2, hc2, hd2⟩ := settle_present _ w.timers _ _ ht he hc
  refine ⟨w2, _, _, h2, he2, rfl, hc2, rfl, ?_⟩
  rw [hd2, hd, List.length_map]

/-- C2: on a page with the Expand control (having a parent) and the Collapse
control, in the state the constructor leaves (whether or not `setCurrent`
threw at its end) and after its recomputation, a click on the Expand control
leaves every one of the N entries of the Detail group with `open = true`
(whatever their states were), and once the recomputation that follows has
run, the Expand control's display is `none` and the Collapse control's
display is `inline-block`. -/
theorem click_expand_opens_all (host : Host) (w : World) (x : ExpandControl) (c : Container)
    (y : CollapseControl) (hx : w.doc.expand = some x) (hp : x.parentElement = some c)
    (hy : w.doc.collapse = some y) :
    ∃ w2 w3, (stateAfter (constructor host w)).settle = .ok w2 ∧
      (clickExpand w2).settle = .ok w3 ∧
      (clickExpand w2).doc.details.length = w.doc.details.length ∧
      (∀ n ∈ (clickExpand w2).doc.details, n.openProp = .bool true) ∧
      w3.doc.details = (clickExpand w2).doc.details ∧
      w3.doc.expand.map (fun e => e.display) = some "none" ∧
      w3.doc.collapse.map (fun k => k.display) = some "inline-block" := by
  obtain ⟨w2, x2, y2, h2, he, hl, hc, _, hlen⟩ := constructor_settle host w x c y hx hp hy
  obtain ⟨hlen3, hopen, w3, h3, hd3, he3, hc3⟩ := clickExpand_wired w2 x2 y2 _ he hc hl
  exact ⟨w2, w3, h2, h3, hlen3.trans hlen, hopen, hd3, he3, hc3⟩

/-- Witness of C2 on the sample page (one open entry, one closed, one never
set), and on the page whose canonical path makes `setCurrent` throw. -/
theorem click_expand_opens_all_witness :
    (versionsPage.doc.expand = some ⟨"", [], some ⟨"none"⟩⟩ ∧
      (⟨"", [], some ⟨"none"⟩⟩ : ExpandControl).parentElement = some ⟨"none"⟩ ∧
      versionsPage.doc.collapse = some ⟨"", []⟩ ∧
      ∃ w2 w3, (stateAfter (constructor rejectingHost versionsPage)).settle = .ok w2 ∧
        (clickExpand w2).settle = .ok w3 ∧
        (clickExpand w2).doc.details.length = versionsPage.doc.details.length ∧
        (∀ n ∈ (clickExpand w2).doc.details, n.openProp = .bool true) ∧
        w3.doc.details = (clickExpand w2).doc.details ∧
        w3.doc.expand.map (fun e => e.display) = some "none" ∧
        w3.doc.collapse.map (fun k => k.display) = some "inline-block") ∧
    (quotePathPage.doc.expand = some ⟨"", [], some ⟨"none"⟩⟩ ∧
      quotePathPage.doc.collapse = some ⟨"", []⟩ ∧
      ∃ w2 w3, (stateAfter (constructor rejectingHost quotePathPage)).settle = .ok w2 ∧
        (clickExpand w2).settle = .ok w3 ∧
        (clickExpand w2).doc.details.length = quotePathPage.doc.details.length ∧
        (∀ n ∈ (clickExpand w2).doc.details, n.openProp = .bool true) ∧
        w3.doc.details = (clickExpand w2).doc.details ∧
        w3.doc.expand.map (fun e => e.display) = some "none" ∧
        w3.doc.collapse.map (fun k => k.display) = some "inline-block") :=
  ⟨⟨rfl, rfl, rfl, click_expand_opens_all rejectingHost versionsPage _ _ _ rfl rfl rfl⟩,
   ⟨rfl, rfl, click_expand_opens_all rejectingHost quotePathPage _ _ _ rfl rfl rfl⟩⟩

/-- C3, as stated, fails for N = 0: on the sample page without entries, after
construction a click on the Collapse control and the recomputation that
follows leave the Expand control's display `none` and the Collapse control's
display `inline-block`. -/
theorem click_collapse_empty_group :
    emptyGroupPage.doc.expand = some ⟨"", [], some ⟨"none"⟩⟩ ∧
    emptyGroupPage.doc.collapse = some ⟨"", []⟩ ∧
    emptyGroupPage.doc.details.length = 0 ∧
    ∃ w1 w2 w3, constructor rejectingHost emptyGroupPage = .ok w1 ∧ w1.settle = .ok w2 ∧
      (clickCollapse w2).settle = .ok w3 ∧
      w3.doc.expand.map (fun e => e.display) = some "none" ∧
      w3.doc.collapse.map (fun k => k.display) = some "inline-block" ∧
      w3.doc.expand.map (fun e => e.display) ≠ some "inline-block" ∧
      w3.doc.collapse.map (fun k => k.display) ≠ some "none" :=
  ⟨rfl, rfl, rfl, _, _, _, rfl, rfl, rfl, rfl, rfl, by decide, by decide⟩

/-- C3, amended: on a page with the Expand control (having a parent) and the
Collapse control, in the state the constructor leaves (whether or not
`setCurrent` threw at its end) and after its recomputation, a click on the
Collapse control leaves every one of the N entries with `open = false`, and
once the recomputation that follows has run, for N at least 1 the Expand
control's display is `inline-block` and the Collapse control's is `none`,
while for N = 0 Expand is `none` and Collapse is `inline-block`. -/
theorem click_collapse_closes_all (host : Host) (w : World) (x : ExpandControl)
    (c : Container) (y : CollapseControl) (hx : w.doc.expand = some x)
    (hp : x.parentElement = some c) (hy : w.doc.collapse = some y) :
    ∃ w2 w3, (stateAfter (constructor host w)).settle = .ok w2 ∧
      (clickCollapse w2).settle = .ok w3 ∧
      (clickCollapse w2).doc.details.length = w.doc.details.length ∧
      (∀ n ∈ (clickCollapse w2).doc.details, n.openProp = .bool false) ∧
      w3.doc.details = (clickCollapse w2).doc.details ∧
      w3.doc.expand.map (fun e => e.display)
        = some (if w.doc.details.length = 0 then "none" else "inline-block") ∧
      w3.doc.collapse.map (fun k => k.display)
        = some (if w.doc.details.length = 0 then "inline-block" else "none") := by
  obtain ⟨w2, x2, y2, h2, he, _, hc, hl, hlen⟩ := constructor_settle host w x c y hx hp hy
  obtain ⟨hlen3, hclosed, w3, h3, hd3, he3, hc3⟩ := clickCollapse_wired w2 x2 y2 _ he hc hl
  rw [hlen] at he3 hc3
  exact ⟨w2, w3, h2, h3, hlen3.trans hlen, hclosed, hd3, he3, hc3⟩

/-- Witness of the amended C3 on the sample page, whose group has three
entries. -/
theorem click_collapse_closes_all_witness :
    versionsPage.doc.expand = some ⟨"", [], some ⟨"none"⟩⟩ ∧
    (⟨"", [], some ⟨"none"⟩⟩ : ExpandControl).parentElement = some ⟨"none"⟩ ∧
    versionsPage.doc.collapse = some ⟨"", []⟩ ∧
    ∃ w2 w3, (stateAfter (constructor rejectingHost versionsPage)).settle = .ok w2 ∧
      (clickCollapse w2).settle = .ok w3 ∧
      (clickCollapse w2).doc.details.length = versionsPage.doc.details.length ∧
      (∀ n ∈ (clickCollapse w2).doc.details, n.openProp = .bool false) ∧
      w3.doc.details = (clickCollapse w2).doc.details ∧
      w3.doc.expand.map (fun e => e.display)
        = some (if versionsPage.doc.details.length = 0 then "none" else "inline-block") ∧
      w3.doc.collapse.map (fun k => k.display)
        = some (if versionsPage.doc.details.length = 0 then "inline-block" else "none") :=
  ⟨rfl, rfl, rfl, click_collapse_closes_all rejectingHost versionsPage _ _ _ rfl rfl rfl⟩

end VersionsController

namespace VersionsController

/-! ## Construction without a usable Expand control, and the container -/

/-- C4: when the Expand control is absent or has no parent element, the
constructor returns without an error and leaves the whole state as it was:
no display style, open state, listener list or font weight changes (also
when the canonical path is that of a version link) and no timer is
scheduled. -/
theorem constructor_without_expand (host : Host) (w : World)
    (h : w.doc.expand = none ∨ ∃ x, w.doc.expand = some x ∧ x.parentElement = none) :
    constructor host w = .ok w := by
  unfold constructor
  rcases h with h | ⟨x, hx, hp⟩
  · simp [h, pure, Except.pure]
  · simp [hx, hp, pure, Except.pure]

/-- Witness of C4: the sample page without the Expand control and the one
whose Expand control has no parent, both with a canonical path that is the
`href` of the second version link. -/
theorem constructor_without_expand_witness :
    ((noExpandPage.doc.expand = none ∨
        ∃ x, noExpandPage.doc.expand = some x ∧ x.parentElement = none) ∧
      constructor rejectingHost noExpandPage = .ok noExpandPage) ∧
    ((orphanExpandPage.doc.expand = none ∨
        ∃ x, orphanExpandPage.doc.expand = some x ∧ x.parentElement = none) ∧
      constructor rejectingHost orphanExpandPage = .ok orphanExpandPage) :=
  ⟨⟨Or.inl rfl, constructor_without_expand rejectingHost noExpandPage (Or.inl rfl)⟩,
   ⟨Or.inr ⟨_, rfl, rfl⟩,
    constructor_without_expand rejectingHost orphanExpandPage (Or.inr ⟨_, rfl, rfl⟩)⟩⟩

/-- C7: when the Expand control has a parent container, the constructor
(whether or not `setCurrent` throws at its end) leaves the container's
display at `block` if some entry of the Detail group has the tag name
`DETAILS`, and at the value it had before otherwise (an empty group
included). -/
theorem constructor_container_display (host : Host) (w : World) (x : ExpandControl)
    (c : Container) (hx : w.doc.expand = some x) (hp : x.parentElement = some c) :
    ((stateAfter (constructor host w)).doc.expand.bind (fun e => e.parentElement)).map
        (fun k => k.display)
      = some (if ∃ e ∈ w.doc.details, e.tagName = "DETAILS" then "block" else c.display) := by
  obtain ⟨_, he, _⟩ := constructor_wired host w x c hx hp
  rw [he]
  simp only [Option.some_bind, Option.map_some', List.any_eq_true, decide_eq_true_eq]

/-- Witness of C7: on the sample page the hidden container becomes `block`,
on the page without entries it stays `none`, and on the page whose canonical
path makes `setCurrent` throw it becomes `block` all the same. -/
theorem constructor_container_display_witness :
    (versionsPage.doc.expand = some ⟨"", [], some ⟨"none"⟩⟩ ∧
      (⟨"", [], some ⟨"none"⟩⟩ : ExpandControl).parentElement = some ⟨"none"⟩ ∧
      ((stateAfter (constructor rejectingHost versionsPage)).doc.expand.bind
          (fun e => e.parentElement)).map (fun k => k.display)
        = some (if ∃ e ∈ versionsPage.doc.details, e.tagName = "DETAILS"
            then "block" else (⟨"none"⟩ : Container).display)) ∧
    (emptyGroupPage.doc.expand = some ⟨"", [], some ⟨"none"⟩⟩ ∧
      ((stateAfter (constructor rejectingHost emptyGroupPage)).doc.expand.bind
          (fun e => e.parentElement)).map (fun k => k.display)
        = some (if ∃ e ∈ emptyGroupPage.doc.details, e.tagName = "DETAILS"
            then "block" else (⟨"none"⟩ : Container).display)) ∧
    (quotePathPage.doc.expand = some ⟨"", [], some ⟨"none"⟩⟩ ∧
      ((stateAfter (constructor rejectingHost quotePathPage)).doc.expand.bind
          (fun e => e.parentElement)).map (fun k => k.display)
        = some (if ∃ e ∈ quotePathPage.doc.details, e.tagName = "DETAILS"
            then "block" else (⟨"none"⟩ : Container).display)) :=
  ⟨⟨rfl, rfl, constructor_container_display rejectingHost versionsPage _ _ rfl rfl⟩,
   ⟨rfl, constructor_container_display rejectingHost emptyGroupPage _ _ rfl rfl⟩,
   ⟨rfl, constructor_container_display rejectingHost quotePathPage _ _ rfl rfl⟩⟩

/-- On the page whose canonical path holds a quotation mark the constructor
throws a `SyntaxError` out of `setCurrent`, whatever the selector engine,
after the listeners are registered and the timer is scheduled. -/
theorem constructor_throws_on_quote (host : Host) :
    ∃ t, constructor host quotePathPage = .error t ∧ t.error = .syntaxError ∧
      t.world.timers = 1 ∧
      t.world.doc.expand.map (fun e => e.listeners) = some [Listener.expandClick] ∧
      t.world.doc.collapse.map (fun k => k.listeners) = some [Listener.collapseClick] :=
  ⟨_, rfl, rfl, rfl, rfl, rfl⟩

end VersionsController

namespace VersionsController

/-! ## Marking the current version -/

theorem firstWithHref_first (v : String) (ls : List VersionLink) (i : Nat)
    (l : VersionLink) (hi : ls[i]? = some l) (hl : l.href = v)
    (hfirst : ∀ j l', j < i → ls[j]? = some l' → l'.href ≠ v) :
    firstWithHref v ls = some i := by
  induction ls generalizing i with
  | nil => simp at hi
  | cons a as ih =>
    cases i with
    | zero =>
      simp only [List.getElem?_cons_zero, Option.some.injEq] at hi
      simp [firstWithHref, hi, hl]
    | succ k =>
      have ha : a.href ≠ v := hfirst 0 a (Nat.succ_pos k) (by simp)
      have hk : firstWithHref v as = some k := by
        apply ih k
        · simpa using hi
        · intro j l' hj hj'
          exact hfirst (j + 1) l' (Nat.succ_lt_succ hj) (by simpa using hj')
      simp [firstWithHref, ha, hk]

theorem firstWithHref_none (v : String) (ls : List VersionLink)
    (h : ∀ l ∈ ls, l.href ≠ v) : firstWithHref v ls = none := by
  induction ls with
  | nil => rfl
  | cons a as ih =>
    have ha : a.href ≠ v := h a (List.mem_cons_self a as)
    have hr := ih (fun l hl => h l (List.mem_cons_of_mem a hl))
    simp [firstWithHref, ha, hr]

theorem setFontWeight_length (s : String) (i : Nat) (ls : List VersionLink) :
    (setFontWeight s i ls).length = ls.length := by
  induction ls generalizing i with
  | nil => cases i <;> rfl
  | cons a as ih =>
    cases i with
    | zero => rfl
    | succ k => simp [setFontWeight, ih]

theorem setFontWeight_getElem?_self (s : String) (i : Nat) (ls : List VersionLink) :
    (setFontWeight s i ls)[i]? = ls[i]?.map (fun l => { l with fontWeight := s }) := by
  induction ls generalizing i with
  | nil => cases i <;> simp [setFontWeight]
  | cons a as ih =>
    cases i with
    | zero => simp [setFontWeight]
    | succ k => simp [setFontWeight, ih]

theorem setFontWeight_getElem?_other (s : String) (i j : Nat) (ls : List VersionLink)
    (h : j ≠ i) : (setFontWeight s i ls)[j]? = ls[j]? := by
  induction ls generalizing i j with
  | nil => cases i <;> simp [setFontWeight]
  | cons a as ih =>
    cases i with
    | zero =>
      cases j with
      | zero => exact absurd rfl h
      | succ m => simp [setFontWeight]
    | succ k =>
      cases j with
      | zero => simp [setFontWeight]
      | succ m =>
        simp only [setFontWeight, List.getElem?_cons_succ]
        exact ih k m (fun hmk => h (by rw [hmk]))

/-- A plain character read inside the string is added to its value. -/
theorem step_plain (s : Scanner) (c : Char) (hm : s.mode = .text) (hc : plainChar c = true) :
    s.step c = { s with value := s.value ++ [c] } := by
  simp only [plainChar, Bool.not_eq_true', Bool.or_eq_false_iff, decide_eq_false_iff_not] at hc
  obtain ⟨⟨⟨hq, hb⟩, hn⟩, h0⟩ := hc
  obtain ⟨m, v, r⟩ := s
  simp only at hm
  subst hm
  simp [Scanner.step, Scanner.text, hq, hb, hn, h0, preprocess]

theorem foldl_step_plain (cs acc : List Char) (h : ∀ c ∈ cs, plainChar c = true) :
    cs.foldl Scanner.step { mode := .text, value := acc, rest := [] }
      = { mode := .text, value := acc ++ cs, rest := [] } := by
  induction cs generalizing acc with
  | nil => simp
  | cons c cs ih =>
    rw [List.foldl_cons, step_plain _ c rfl (h c (List.mem_cons_self c cs))]
    rw [ih (acc ++ [c]) (fun d hd => h d (List.mem_cons_of_mem c hd))]
    simp

/-- A text of plain characters is an attribute selector on that very text. -/
theorem parseSelector_plain (v : String) (h : cssPlain v = true) :
    parseSelector v = .hrefEquals v := by
  have hall : ∀ c ∈ v.data, plainChar c = true := by
    simpa [cssPlain, List.all_eq_true] using h
  unfold parseSelector
  rw [List.foldl_append, foldl_step_plain v.data [] hall]
  simp [Scanner.step, Scanner.text]

/-- With a canonical path of plain characters, `setCurrent` does not throw
and gives the first version link with that `href` the font weight `bold`,
leaving every other link as it was. -/
theorem setCurrent_plain_marks_first (host : Host) (d : Document) (m : Marker) (v : String)
    (i : Nat) (l : VersionLink) (hm : d.canonicalURLPath = some m)
    (hv : m.canonicalUrlPath = some v) (hplain : cssPlain v = true)
    (hi : d.versionLinks[i]? = some l) (hl : l.href = v)
    (hfirst : ∀ j l', j < i → d.versionLinks[j]? = some l' → l'.href ≠ v) :
    ∃ d', setCurrent host d = .ok d' ∧
      d'.versionLinks[i]? = some { l with fontWeight := "bold" } ∧
      (∀ j, j ≠ i → d'.versionLinks[j]? = d.versionLinks[j]?) ∧
      d'.versionLinks.length = d.versionLinks.length := by
  have hq : querySelectorVersionLink host
      (templateText (d.canonicalURLPath.bind (fun m => m.canonicalUrlPath))) d.versionLinks
      = .ok (some i) := by
    rw [hm, Option.some_bind, hv]
    simp only [templateText, querySelectorVersionLink, parseSelector_plain v hplain]
    rw [firstWithHref_first v d.versionLinks i l hi hl hfirst]
  refine ⟨{ d with versionLinks := setFontWeight "bold" i d.versionLinks }, ?_, ?_, ?_, ?_⟩
  · unfold setCurrent
    simp only [hq, bind, Except.bind, pure, Except.pure]
  · show (setFontWeight "bold" i d.versionLinks)[i]? = _
    rw [setFontWeight_getElem?_self, hi]
    rfl
  · intro j hj
    exact setFontWeight_getElem?_other "bold" i j d.versionLinks hj
  · exact setFontWeight_length "bold" i d.versionLinks

/-- With a canonical path of plain characters that is the `href` of no
version link, `setCurrent` changes nothing. -/
theorem setCurrent_plain_no_match (host : Host) (d : Document) (m : Marker) (v : String)
    (hm : d.canonicalURLPath = some m) (hv : m.canonicalUrlPath = some v)
    (hplain : cssPlain v = true) (h : ∀ l ∈ d.versionLinks, l.href ≠ v) :
    setCurrent host d = .ok d := by
  unfold setCurrent
  rw [hm, Option.some_bind, hv]
  simp only [templateText, querySelectorVersionLink, parseSelector_plain v hplain,
    firstWithHref_none v d.versionLinks h, bind, Except.bind, pure, Except.pure]

/-- C5 fails on the code: the canonical path `/x`, backslash, `79` is the
`href` of the first version link, yet `setCurrent` leaves that link as it
was and makes bold the second one, whose `href` is `/xy`: pasted into the
selector, the backslash and the two digits are an escape for `y`. -/
theorem setCurrent_escape_in_path (host : Host) :
    escapePathPage.canonicalURLPath = some ⟨some escapePath⟩ ∧
    escapePathPage.versionLinks = [⟨escapePath, ""⟩, ⟨"/xy", ""⟩] ∧
    escapePath ≠ "/xy" ∧
    setCurrent host escapePathPage
      = .ok { escapePathPage with versionLinks := [⟨escapePath, ""⟩, ⟨"/xy", "bold"⟩] } :=
  ⟨rfl, rfl, by decide, rfl⟩

/-- A canonical path with a quotation mark followed by a letter makes
`setCurrent` throw a `SyntaxError`, also when a version link has that very
path as its `href`. -/
theorem setCurrent_quote_in_path (host : Host) :
    quotePathPage.doc.versionLinks = [⟨quotePath, ""⟩] ∧
    quotePathPage.doc.canonicalURLPath = some ⟨some quotePath⟩ ∧
    setCurrent host quotePathPage.doc = .error .syntaxError :=
  ⟨rfl, rfl, rfl⟩

/-- C6 fails on the code: with the canonical path marker absent, the link
whose `href` attribute is the text `undefined` is made bold. -/
theorem setCurrent_absent_marker_undefined_href (host : Host) :
    noMarkerPage.canonicalURLPath = none ∧
    (noMarkerPage.versionLinks.map (fun l => l.fontWeight)) = ["", ""] ∧
    setCurrent host noMarkerPage
      = .ok { noMarkerPage with
          versionLinks := [⟨"/example.com/m@v1.1.0", ""⟩, ⟨"undefined", "bold"⟩] } ∧
    setCurrent host noMarkerPage ≠ .ok noMarkerPage :=
  ⟨rfl, rfl, rfl, fun h => absurd (Except.ok.inj h) (by decide)⟩

end VersionsController

namespace VersionsController

/-! ## Tag names and button visibility -/

theorem scan_congr_open (ds es : List DetailsElem)
    (h : ds.map (fun n => n.openProp) = es.map (fun n => n.openProp)) :
    (scan ds).2.truthy = (scan es).2.truthy := by
  have key : ∀ l : List DetailsElem,
      l.any (fun n => !n.openProp.truthy)
        = (l.map (fun n => n.openProp)).any (fun o => !o.truthy) := by
    intro l
    induction l with
    | nil => rfl
    | cons a as ih => simp only [List.any_cons, List.map_cons, ih]
  rw [scan_snd_truthy, scan_snd_truthy, key ds, key es, h]

/-- C8, as stated, fails: the two sample groups have the same `DETAILS`
entries (one open `details`) and differ only in a `div` whose `open` was
never set, yet the recomputation hides Expand and shows Collapse for the
first and shows Expand and hides Collapse for the second. -/
theorem updateButtons_counts_other_tags :
    openDetailsOnly.details.filter (fun e => e.tagName = "DETAILS")
      = openDetailsAndDiv.details.filter (fun e => e.tagName = "DETAILS") ∧
    ∃ a b, (updateButtons ⟨openDetailsOnly, 0⟩).settle = .ok a ∧
      (updateButtons ⟨openDetailsAndDiv, 0⟩).settle = .ok b ∧
      a.doc.expand.map (fun e => e.display) = some "none" ∧
      b.doc.expand.map (fun e => e.display) = some "inline-block" ∧
      a.doc.collapse.map (fun k => k.display) = some "inline-block" ∧
      b.doc.collapse.map (fun k => k.display) = some "none" ∧
      a.doc.expand.map (fun e => e.display) ≠ b.doc.expand.map (fun e => e.display) ∧
      a.doc.collapse.map (fun k => k.display) ≠ b.doc.collapse.map (fun k => k.display) :=
  ⟨rfl, _, _, rfl, rfl, rfl, rfl, rfl, rfl, by decide, by decide⟩

/-- C8, amended: the button visibility computed by a recomputation depends
only on the open states of the entries of the Detail group, whatever their
tag names: two groups whose entries have, in order, the same `open` values
get the same Expand and Collapse display values. -/
theorem updateButtons_depends_on_open_states (w v : World)
    (x x2 : ExpandControl) (y y2 : CollapseControl)
    (hx : w.doc.expand = some x) (hy : w.doc.collapse = some y)
    (hx2 : v.doc.expand = some x2) (hy2 : v.doc.collapse = some y2)
    (h : w.doc.details.map (fun n => n.openProp) = v.doc.details.map (fun n => n.openProp)) :
    ∃ w' v', (updateButtons w).settle = .ok w' ∧ (updateButtons v).settle = .ok v' ∧
      w'.doc.expand.map (fun e => e.display) = v'.doc.expand.map (fun e => e.display) ∧
      w'.doc.collapse.map (fun k => k.display) = v'.doc.collapse.map (fun k => k.display) := by
  obtain ⟨w', hw, _, he, hc⟩ := settle_updateButtons_fields w x y hx hy
  obtain ⟨v', hv, _, he2, hc2⟩ := settle_updateButtons_fields v x2 y2 hx2 hy2
  refine ⟨w', v', hw, hv, ?_, ?_⟩
  · rw [he, he2, scan_congr_open _ _ h]
  · rw [hc, hc2, scan_congr_open _ _ h]

/-- Witness of the amended C8: an open `details` element alone and an open
`div` alone. -/
theorem updateButtons_depends_on_open_states_witness :
    openDetailsOnly.expand = some ⟨"", [], some ⟨"none"⟩⟩ ∧
    openDetailsOnly.collapse = some ⟨"", []⟩ ∧
    openDivOnly.expand = some ⟨"", [], some ⟨"none"⟩⟩ ∧
    openDivOnly.collapse = some ⟨"", []⟩ ∧
    openDetailsOnly.details.map (fun n => n.tagName) ≠ openDivOnly.details.map (fun n => n.tagName) ∧
    openDetailsOnly.details.map (fun n => n.openProp)
      = openDivOnly.details.map (fun n => n.openProp) ∧
    ∃ w' v', (updateButtons ⟨openDetailsOnly, 0⟩).settle = .ok w' ∧
      (updateButtons ⟨openDivOnly, 0⟩).settle = .ok v' ∧
      w'.doc.expand.map (fun e => e.display) = v'.doc.expand.map (fun e => e.display) ∧
      w'.doc.collapse.map (fun k => k.display) = v'.doc.collapse.map (fun k => k.display) :=
  ⟨rfl, rfl, rfl, rfl, by decide, rfl,
    updateButtons_depends_on_open_states ⟨openDetailsOnly, 0⟩ ⟨openDivOnly, 0⟩ _ _ _ _
      rfl rfl rfl rfl rfl⟩

end VersionsController
